import Mathlib

/-!
Verification of the F1 Lap Replay backend (`src/main.py`), centred on the
`get_lap_data` handler: session loading with a one-shot retry, lap selection,
telemetry/position reconciliation, coordinate normalization and response
assembly.

Pandas/numpy values are modelled as `Val := Option ℚ`, where `none` plays the
role of NaN/NaT (an undefined value); arithmetic on `Val` propagates `none`
exactly as IEEE NaN propagates through numpy arithmetic, and `valNe` mirrors
the fact that `NaN != x` is true for every float `x`.  DataFrames are modelled
as a list of column names plus a list of time-indexed rows whose cells are an
association list from column name to `Val`.
-/

/-- A pandas cell value: `some q` is an ordinary number, `none` is NaN/NaT. -/
abbrev Val := Option ℚ

/-- One time-indexed row of a DataFrame. -/
structure Row where
  idx : Int
  cells : List (String × Val)
deriving DecidableEq

/-- Reading a cell of a row: a column missing from the association list
behaves like NaN, exactly as pandas materialises absent values. -/
def Row.cell (r : Row) (c : String) : Val :=
  (r.cells.lookup c).join

/-- A DataFrame: column names plus rows. -/
structure Frame where
  cols : List String
  rows : List Row
deriving DecidableEq

/-- `df.empty` in pandas. -/
def Frame.isEmpty (f : Frame) : Bool := f.rows.isEmpty

/-- Projection of one row onto a list of columns (`pos_data[pos_columns]`,
rowwise). The time index is preserved. -/
def projectRow (cs : List String) (r : Row) : Row :=
  ⟨r.idx, cs.filterMap (fun c => (r.cells.lookup c).map (fun v => (c, v)))⟩

/-- `pos_data[pos_columns]`: column projection.  Pandas raises `KeyError`
when any requested column is absent, which the handler does not catch. -/
def Frame.project (f : Frame) (cs : List String) : Except String Frame :=
  if cs.all (fun c => f.cols.contains c) then
    Except.ok ⟨cs, f.rows.map (projectRow cs)⟩
  else
    Except.error "KeyError: columns not in index"

/-- Row-level inner join on the time index
(`telemetry.merge(..., left_index=True, right_index=True, how='inner')`):
a left row survives iff some right row carries the same index, and the
surviving row concatenates left cells with the matching right cells. -/
def mergeRows (rrows : List Row) : List Row → List Row
  | [] => []
  | lr :: rest =>
    match rrows.find? (fun rr => rr.idx == lr.idx) with
    | some rr => ⟨lr.idx, lr.cells ++ rr.cells⟩ :: mergeRows rrows rest
    | none => mergeRows rrows rest

/-- Inner join of two frames by time index, keeping the left frame's order. -/
def mergeInner (l r : Frame) : Frame :=
  ⟨l.cols ++ r.cols, mergeRows r.rows l.rows⟩

/-- NaN-propagating pairwise minimum (numpy `min` over an array semantics). -/
def valMin2 : Val → Val → Val
  | some a, some b => some (min a b)
  | _, _ => none

/-- NaN-propagating pairwise maximum. -/
def valMax2 : Val → Val → Val
  | some a, some b => some (max a b)
  | _, _ => none

/-- `xs.min()` for a numpy array: NaN whenever any entry is NaN. -/
def valsMin : List Val → Val
  | [] => none
  | v :: rest => rest.foldl valMin2 v

/-- `xs.max()` for a numpy array: NaN whenever any entry is NaN. -/
def valsMax : List Val → Val
  | [] => none
  | v :: rest => rest.foldl valMax2 v

/-- Float `!=` with NaN semantics: `NaN != x` is true. -/
def valNe : Val → Val → Bool
  | some a, some b => decide (a ≠ b)
  | _, _ => true

/-- NaN-propagating subtraction. -/
def valSub : Val → Val → Val
  | some a, some b => some (a - b)
  | _, _ => none

/-- NaN-propagating division. -/
def valDiv : Val → Val → Val
  | some a, some b => some (a / b)
  | _, _ => none

/-- Python `int(q)` (truncation toward zero). -/
def pyInt (q : ℚ) : Int := Int.tdiv q.num (q.den : Int)

/-- The X column of the merged frame (`merged_data['X'].values`). -/
def xVals (f : Frame) : List Val := f.rows.map (fun r => r.cell "X")

/-- The Y column of the merged frame. -/
def yVals (f : Frame) : List Val := f.rows.map (fun r => r.cell "Y")

/-- `x_range = x_max - x_min if x_max != x_min else 1`, for one axis. -/
def axisRange (vs : List Val) : Val :=
  if valNe (valsMax vs) (valsMin vs) then valSub (valsMax vs) (valsMin vs)
  else some 1

/-- `(v - v_min) / v_range`: normalization of one coordinate on one axis. -/
def axisNorm (vs : List Val) (v : Val) : Val :=
  valDiv (valSub v (valsMin vs)) (axisRange vs)

/-- The per-sample distance value (`distance_val` in the loop body): the
Distance cell when the column exists and the value is defined; otherwise,
when the column exists, `float(row['Distance'])` — which re-reads the same
(NaN) value without a guard; otherwise 0.0. -/
def distance_val (f : Frame) (r : Row) : Val :=
  if f.cols.contains "Distance" && (r.cell "Distance").isSome then
    r.cell "Distance"
  else if f.cols.contains "Distance" then
    r.cell "Distance"
  else
    some 0

/-- The output record for one reconciled sample.  `x`, `y` and `distance`
are `Val` because the Python code can place a float NaN there; all other
fields are guarded by `pd.notna` and therefore always defined. -/
structure TelemetryPoint where
  x : Val
  y : Val
  speed : ℚ
  throttle : ℚ
  brake : ℚ
  gear : Int
  rpm : ℚ
  drs : Int
  distance : Val
  time : ℚ
deriving DecidableEq

/-- Construction of one `TelemetryPoint` from one merged row
(the body of the `for idx, row in merged_data.iterrows()` loop). -/
def mkPoint (f : Frame) (r : Row) : TelemetryPoint where
  x := axisNorm (xVals f) (r.cell "X")
  y := axisNorm (yVals f) (r.cell "Y")
  speed := (r.cell "Speed").getD 0
  throttle := (r.cell "Throttle").getD 0
  brake := (r.cell "Brake").getD 0
  gear := match r.cell "nGear" with | some q => pyInt q | none => 0
  rpm := (r.cell "RPM").getD 0
  drs := match r.cell "DRS" with | some q => pyInt q | none => 0
  distance := distance_val f r
  time := (r.cell "Time").getD 0

/-- The normalizer: bounds are computed once over the full merged frame and
one point is emitted per row, in row order. -/
def normalize_points (f : Frame) : List TelemetryPoint :=
  f.rows.map (mkPoint f)

/-- An in-flight pipeline error: either an `HTTPException` raised with an
explicit status, or an ordinary Python exception (converted to a 500 at the
handler boundary). -/
inductive HErr where
  | http (status : Nat) (detail : String)
  | exn (msg : String)
deriving DecidableEq

/-- `except HTTPException: raise / except Exception: 500` at the end of the
handler. -/
def toHttp : HErr → Nat × String
  | .http s d => (s, d)
  | .exn m => (500, m)

instance {ε α : Type} [DecidableEq ε] [DecidableEq α] : DecidableEq (Except ε α) :=
  fun a b =>
    match a, b with
    | .ok x, .ok y =>
      if h : x = y then .isTrue (by rw [h]) else .isFalse (by simp [h])
    | .error x, .error y =>
      if h : x = y then .isTrue (by rw [h]) else .isFalse (by simp [h])
    | .ok _, .error _ => .isFalse (by simp)
    | .error _, .ok _ => .isFalse (by simp)

/-- One lap record of a driver, with its three stream accessors.  The
accessors are `Except`-valued because each fastf1 call can raise. -/
structure LapRec where
  driver : String
  lapNumber : Int
  lapTime : Option ℚ
  getTelemetry : Except String Frame
  getPosData : Except String Frame
  getCarData : Except String Frame
deriving DecidableEq

/-- The arguments of one `session.load(...)` call. -/
structure LoadArgs where
  telemetry : Bool
  laps : Bool
  weather : Option Bool
  messages : Option Bool
deriving DecidableEq

/-- `load(telemetry=True, laps=True, weather=False, messages=False)`. -/
def fullArgs : LoadArgs := ⟨true, true, some false, some false⟩

/-- `load(telemetry=True, laps=True)` — the reduced retry request. -/
def reducedArgs : LoadArgs := ⟨true, true, none, none⟩

/-- Python `needle in hay` on character lists: some rotation-free substring
match. -/
def listInfix (needle hay : List Char) : Bool :=
  (List.range (hay.length + 1)).any (fun i => needle.isPrefixOf (hay.drop i))

/-- `str(e).lower()` as a character list. -/
def strLower (s : String) : List Char := s.toList.map Char.toLower

/-- `"ergast" in str(e).lower() or "timeout" in str(e).lower()`. -/
def isTransientErr (e : String) : Bool :=
  listInfix "ergast".toList (strLower e) ||
  listInfix "timeout".toList (strLower e)

/-- The session loader: one full-argument attempt; on failure, if the error
text matches the transient heuristic, one reduced-argument retry; any other
first error, and any second failure, propagates. -/
def loadSession (provider : LoadArgs → Except String (List LapRec)) :
    Except String (List LapRec) :=
  match provider fullArgs with
  | .ok laps => .ok laps
  | .error e => if isTransientErr e then provider reducedArgs else .error e

/-- Python truthiness of the optional `lap_number` query parameter:
`None` and `0` are both falsy. -/
def truthy : Option Int → Bool
  | none => false
  | some n => decide (n ≠ 0)

/-- One step of the fastest-lap fold: keep the lap with the smaller time. -/
def fastStep (best : Option LapRec) (l : LapRec) : Option LapRec :=
  match best with
  | none => some l
  | some b => if l.lapTime.getD 0 < b.lapTime.getD 0 then some l else some b

/-- Modelled from the spec: the external provider's `pick_fastest` (fastf1,
not part of this repository) selects the driver's fastest valid lap — the
minimum non-null lap time — and yields nothing when no lap has a time. -/
def pick_fastest (laps : List LapRec) : Option LapRec :=
  (laps.filter (fun l => l.lapTime.isSome)).foldl fastStep none

/-- Raw lap selection (lines 161-164): by number via truthiness of the
query parameter and `.iloc[0]` (an uncaught `IndexError` when nothing
matches), otherwise the provider's fastest-lap pick. -/
def selectLapRaw (driver_laps : List LapRec) (lap_number : Option Int) :
    Except HErr LapRec :=
  if truthy lap_number then
    match (driver_laps.filter
        (fun l => decide (l.lapNumber = lap_number.getD 0))).head? with
    | some l => Except.ok l
    | none => Except.error (HErr.exn "single positional indexer is out-of-bounds")
  else
    match pick_fastest driver_laps with
    | some l => Except.ok l
    | none => Except.error (HErr.exn "NoneType object is not subscriptable")

/-- Lap selection (lines 161-170): the raw selection followed by the
`pd.isna(lap['LapTime'])` guard. -/
def selectLap (driver_laps : List LapRec) (lap_number : Option Int) :
    Except HErr LapRec :=
  match selectLapRaw driver_laps lap_number with
  | .error e => .error e
  | .ok lap =>
    if lap.lapTime.isSome then .ok lap
    else .error (.http 404 "Selected lap has no valid lap time")

/-- `has_pos_data`: the stream is non-empty and carries both X and Y. -/
def hasXY (f : Frame) : Bool :=
  !f.isEmpty && f.cols.contains "X" && f.cols.contains "Y"

/-- The 404 detail used when no fallback source yields position data. -/
def noPosMsg : String :=
  "No position data (X, Y coordinates) available for this lap. Try a different session (Qualifying often has better data)."

/-- The position-source fallback chain (lines 190-219): the dedicated
position stream first — a raised exception there is an immediate 404 — then
the car-dynamics stream, whose own exception is swallowed. -/
def choosePos (lap : LapRec) : Except HErr Frame :=
  match lap.getPosData with
  | .error _ => .error (.http 404 "No position data available for this lap")
  | .ok p0 =>
    if hasXY p0 then .ok p0
    else
      match lap.getCarData with
      | .ok c => if hasXY c then .ok c else .error (.http 404 noPosMsg)
      | .error _ => .error (.http 404 noPosMsg)

/-- `pos_columns` (lines 222-224): X, Y, Z always; Distance exactly when the
position source has it and telemetry does not. -/
def posColumns (pos t : Frame) : List String :=
  if pos.cols.contains "Distance" && !t.cols.contains "Distance" then
    ["X", "Y", "Z", "Distance"]
  else
    ["X", "Y", "Z"]

/-- The merge step (lines 221-231): project the chosen position source on
`pos_columns` (KeyError when a column is missing) and inner-join with
telemetry by time index. -/
def mergeWithPos (lap : LapRec) (t : Frame) : Except HErr Frame :=
  match choosePos lap with
  | .error e => .error e
  | .ok pos =>
    match pos.project (posColumns pos t) with
    | .error e => .error (.exn e)
    | .ok pp => .ok (mergeInner t pp)

/-- The telemetry reconciler (lines 174-237): fetch telemetry, 404 when it
is empty, use it directly when it already has X and Y, otherwise merge with
a fallback position source; 404 when the merge result is empty. -/
def reconcile (lap : LapRec) : Except HErr Frame :=
  match lap.getTelemetry with
  | .error e => .error (.exn e)
  | .ok t =>
    if t.isEmpty then
      .error (.http 404 "No telemetry data available for this lap")
    else
      match
        (if t.cols.contains "X" && t.cols.contains "Y" then Except.ok t
         else mergeWithPos lap t)
      with
      | .error e => .error e
      | .ok merged =>
        if merged.isEmpty then
          .error (.http 404 "Could not merge telemetry with position data")
        else .ok merged

/-- The response payload (the fields the pipeline computes; track metadata
is copied verbatim from the session and is not modelled). -/
structure LapDataResponse where
  driver : String
  lap_number : Int
  lap_time : Option ℚ
  telemetry : List TelemetryPoint
deriving DecidableEq

/-- The full `get_lap_data` handler: load the session (with the retry
policy), filter the driver's laps, select a lap, reconcile telemetry with
position data, normalize, and map pipeline errors to HTTP status/detail
pairs at the boundary. -/
def get_lap_data (provider : LoadArgs → Except String (List LapRec))
    (driver : String) (lap_number : Option Int) :
    Except (Nat × String) LapDataResponse :=
  let pipeline : Except HErr LapDataResponse :=
    match loadSession provider with
    | .error e => .error (.exn e)
    | .ok laps =>
      let dl := laps.filter (fun l => l.driver == driver)
      if dl.isEmpty then
        .error (.http 404 ("No laps found for driver " ++ driver))
      else
        match selectLap dl lap_number with
        | .error e => .error e
        | .ok lap =>
          match reconcile lap with
          | .error e => .error e
          | .ok merged =>
            .ok { driver := driver, lap_number := lap.lapNumber,
                  lap_time := lap.lapTime,
                  telemetry := normalize_points merged }
  match pipeline with
  | .ok r => .ok r
  | .error e => .error (toHttp e)

/-! ## Concrete data used by the evaluations below -/

/-- A two-sample frame with defined X and Y (Y is degenerate). -/
def fW1 : Frame :=
  ⟨["X", "Y"],
   [⟨0, [("X", some 0), ("Y", some 3)]⟩,
    ⟨1, [("X", some 2), ("Y", some 3)]⟩]⟩

/-- A telemetry frame with no position columns. -/
def tCE : Frame := ⟨["Speed"], [⟨0, [("Speed", some 100)]⟩]⟩

/-- A car-dynamics frame that does carry X and Y (and Z). -/
def carCE : Frame :=
  ⟨["X", "Y", "Z"], [⟨0, [("X", some 1), ("Y", some 2), ("Z", some 3)]⟩]⟩

/-- A lap whose dedicated position accessor raises while its car-dynamics
stream has full position data. -/
def lapCE : LapRec :=
  ⟨"VER", 1, some 80, Except.ok tCE, Except.error "SignalR request failed",
   Except.ok carCE⟩

/-- A telemetry frame with no position columns. -/
def tC2W : Frame := ⟨["Speed"], [⟨0, [("Speed", some 100)]⟩]⟩

/-- An empty dedicated position stream. -/
def posC2W : Frame := ⟨["Z"], []⟩

/-- A lap whose position stream is empty and whose car-dynamics accessor
raises. -/
def lapC2W : LapRec :=
  ⟨"VER", 1, some 80, Except.ok tC2W, Except.ok posC2W, Except.error "boom"⟩

/-- A two-sample telemetry frame without position columns. -/
def tW3 : Frame :=
  ⟨["Speed"], [⟨0, [("Speed", some 10)]⟩, ⟨1, [("Speed", some 20)]⟩]⟩

/-- A one-sample dedicated position stream sharing only index 1 with `tW3`. -/
def posW3 : Frame :=
  ⟨["X", "Y", "Z"], [⟨1, [("X", some 5), ("Y", some 6), ("Z", some 7)]⟩]⟩

/-- A lap that needs a merge and has a usable dedicated position stream. -/
def lapW3 : LapRec :=
  ⟨"VER", 1, some 80, Except.ok tW3, Except.ok posW3, Except.error "nope"⟩

/-- `posW3` projected on X, Y, Z. -/
def ppW3 : Frame :=
  ⟨["X", "Y", "Z"], [⟨1, [("X", some 5), ("Y", some 6), ("Z", some 7)]⟩]⟩

/-- The merge of `tW3` with the projected position stream. -/
def mW3 : Frame := mergeInner tW3 ppW3

/-- A single lap, number 1, with a valid time. -/
def lapC4 : LapRec :=
  ⟨"VER", 1, some 80, Except.error "t", Except.error "t", Except.error "t"⟩

/-- A provider whose session holds exactly `lapC4`. -/
def provC4 : LoadArgs → Except String (List LapRec) := fun _ => Except.ok [lapC4]

/-- A lap, number 1, with a null lap time. -/
def lapC5 : LapRec :=
  ⟨"VER", 1, none, Except.error "t", Except.error "t", Except.error "t"⟩

/-- A merged frame whose Distance column holds a NaN sample. -/
def fC6 : Frame :=
  ⟨["X", "Y", "Speed", "Distance"],
   [⟨0, [("X", some 1), ("Y", some 2), ("Speed", some 100), ("Distance", none)]⟩]⟩

/-- A two-sample telemetry frame that already carries X and Y. -/
def tC7 : Frame :=
  ⟨["X", "Y", "Speed"],
   [⟨0, [("X", some 1), ("Y", some 2), ("Speed", some 30)]⟩,
    ⟨1, [("X", some 3), ("Y", some 4), ("Speed", some 40)]⟩]⟩

/-- A lap whose telemetry already carries position data. -/
def lapC7 : LapRec :=
  ⟨"VER", 1, some 80, Except.ok tC7, Except.error "e", Except.error "e"⟩

/-- A provider failing the full-argument load with a timeout message and
succeeding on the reduced retry. -/
def provC8 : LoadArgs → Except String (List LapRec) := fun a =>
  if a = fullArgs then Except.error "Timeout occurred" else Except.ok []

/-- A telemetry frame with no position columns. -/
def tC10 : Frame := ⟨["Speed"], [⟨0, [("Speed", some 1)]⟩]⟩

/-- A position stream with X and Y but no Z column. -/
def posC10 : Frame := ⟨["X", "Y"], [⟨0, [("X", some 1), ("Y", some 2)]⟩]⟩

/-- A lap whose usable position stream lacks the Z column. -/
def lapC10 : LapRec :=
  ⟨"VER", 1, some 80, Except.ok tC10, Except.ok posC10, Except.error "e"⟩

/-! ## Helper lemmas: NaN-free minima and maxima -/

theorem foldl_valMin2_spec (l : List Val) : ∀ a : ℚ, (∀ v ∈ l, v.isSome) →
    ∃ m : ℚ, l.foldl valMin2 (some a) = some m ∧ m ≤ a ∧
      (∀ q : ℚ, some q ∈ l → m ≤ q) ∧ (m = a ∨ some m ∈ l) := by
  induction l with
  | nil =>
    intro a _
    exact ⟨a, rfl, le_refl a, by simp, Or.inl rfl⟩
  | cons v t ih =>
    intro a hall
    obtain ⟨b, rfl⟩ := Option.isSome_iff_exists.mp (hall v (List.mem_cons_self v t))
    obtain ⟨m, hm, hle, hbnd, hmem⟩ :=
      ih (min a b) (fun w hw => hall w (List.mem_cons_of_mem _ hw))
    refine ⟨m, ?_, le_trans hle (min_le_left a b), ?_, ?_⟩
    · simpa [valMin2] using hm
    · intro q hq
      rcases List.mem_cons.mp hq with h | h
      · cases Option.some.inj h
        exact le_trans hle (min_le_right a b)
      · exact hbnd q h
    · rcases hmem with h | h
      · rcases le_total a b with hab | hab
        · exact Or.inl (by rw [h, min_eq_left hab])
        · exact Or.inr (by rw [h, min_eq_right hab]; exact List.mem_cons_self _ _)
      · exact Or.inr (List.mem_cons_of_mem _ h)

theorem foldl_valMax2_spec (l : List Val) : ∀ a : ℚ, (∀ v ∈ l, v.isSome) →
    ∃ m : ℚ, l.foldl valMax2 (some a) = some m ∧ a ≤ m ∧
      (∀ q : ℚ, some q ∈ l → q ≤ m) ∧ (m = a ∨ some m ∈ l) := by
  induction l with
  | nil =>
    intro a _
    exact ⟨a, rfl, le_refl a, by simp, Or.inl rfl⟩
  | cons v t ih =>
    intro a hall
    obtain ⟨b, rfl⟩ := Option.isSome_iff_exists.mp (hall v (List.mem_cons_self v t))
    obtain ⟨m, hm, hle, hbnd, hmem⟩ :=
      ih (max a b) (fun w hw => hall w (List.mem_cons_of_mem _ hw))
    refine ⟨m, ?_, le_trans (le_max_left a b) hle, ?_, ?_⟩
    · simpa [valMax2] using hm
    · intro q hq
      rcases List.mem_cons.mp hq with h | h
      · cases Option.some.inj h
        exact le_trans (le_max_right a b) hle
      · exact hbnd q h
    · rcases hmem with h | h
      · rcases le_total a b with hab | hab
        · exact Or.inr (by rw [h, max_eq_right hab]; exact List.mem_cons_self _ _)
        · exact Or.inl (by rw [h, max_eq_left hab])
      · exact Or.inr (List.mem_cons_of_mem _ h)

theorem valsMin_spec (vs : List Val) (hne : vs ≠ []) (hall : ∀ v ∈ vs, v.isSome) :
    ∃ m : ℚ, valsMin vs = some m ∧ (∀ q : ℚ, some q ∈ vs → m ≤ q) ∧ some m ∈ vs := by
  cases vs with
  | nil => exact absurd rfl hne
  | cons v t =>
    obtain ⟨a, rfl⟩ := Option.isSome_iff_exists.mp (hall v (List.mem_cons_self v t))
    obtain ⟨m, hm, hle, hbnd, hmem⟩ :=
      foldl_valMin2_spec t a (fun w hw => hall w (List.mem_cons_of_mem _ hw))
    refine ⟨m, hm, ?_, ?_⟩
    · intro q hq
      rcases List.mem_cons.mp hq with h | h
      · cases Option.some.inj h; exact hle
      · exact hbnd q h
    · rcases hmem with h | h
      · exact h ▸ List.mem_cons_self _ _
      · exact List.mem_cons_of_mem _ h

theorem valsMax_spec (vs : List Val) (hne : vs ≠ []) (hall : ∀ v ∈ vs, v.isSome) :
    ∃ m : ℚ, valsMax vs = some m ∧ (∀ q : ℚ, some q ∈ vs → q ≤ m) ∧ some m ∈ vs := by
  cases vs with
  | nil => exact absurd rfl hne
  | cons v t =>
    obtain ⟨a, rfl⟩ := Option.isSome_iff_exists.mp (hall v (List.mem_cons_self v t))
    obtain ⟨m, hm, hle, hbnd, hmem⟩ :=
      foldl_valMax2_spec t a (fun w hw => hall w (List.mem_cons_of_mem _ hw))
    refine ⟨m, hm, ?_, ?_⟩
    · intro q hq
      rcases List.mem_cons.mp hq with h | h
      · cases Option.some.inj h; exact hle
      · exact hbnd q h
    · rcases hmem with h | h
      · exact h ▸ List.mem_cons_self _ _
      · exact List.mem_cons_of_mem _ h

theorem axisNorm_spec (vs : List Val) (hne : vs ≠ []) (hall : ∀ v ∈ vs, v.isSome) :
    ∃ mn mx : ℚ, valsMin vs = some mn ∧ valsMax vs = some mx ∧
      ∀ q : ℚ, some q ∈ vs →
        ∃ a : ℚ, axisNorm vs (some q) = some a ∧ 0 ≤ a ∧ a ≤ 1 ∧
          (q = mn → a = 0) ∧ (mn ≠ mx → q = mx → a = 1) ∧ (mn = mx → a = 0) := by
  obtain ⟨mn, hmn, hmnbnd, hmnmem⟩ := valsMin_spec vs hne hall
  obtain ⟨mx, hmx, hmxbnd, hmxmem⟩ := valsMax_spec vs hne hall
  refine ⟨mn, mx, hmn, hmx, ?_⟩
  intro q hq
  have hlo : mn ≤ q := hmnbnd q hq
  have hhi : q ≤ mx := hmxbnd q hq
  by_cases hdeg : mx = mn
  · have hq' : q = mn := le_antisymm (hdeg ▸ hhi) hlo
    refine ⟨0, ?_, le_refl 0, zero_le_one, fun _ => rfl, ?_, fun _ => rfl⟩
    · simp only [axisNorm, axisRange, hmn, hmx, valNe, hdeg, hq']
      simp [valSub, valDiv]
    · intro hne' _
      exact absurd hdeg.symm hne'
  · have hlt : mn < mx := lt_of_le_of_ne (le_trans (hmnbnd mx hmxmem) (le_refl mx)) (Ne.symm hdeg)
    have hpos : 0 < mx - mn := sub_pos.mpr hlt
    refine ⟨(q - mn) / (mx - mn), ?_, ?_, ?_, ?_, ?_, ?_⟩
    · simp only [axisNorm, axisRange, hmn, hmx, valNe, valSub, valDiv]
      simp [hdeg]
    · exact div_nonneg (sub_nonneg.mpr hlo) (le_of_lt hpos)
    · exact (div_le_one hpos).mpr (sub_le_sub_right hhi mn)
    · intro hq'; rw [hq']; simp
    · intro _ hq'; rw [hq']; exact div_self (ne_of_gt hpos)
    · intro h; exact absurd h.symm hdeg

/-! ## Helper lemmas: the inner join -/

theorem mergeRows_length_le_left (rr : List Row) (lr : List Row) :
    (mergeRows rr lr).length ≤ lr.length := by
  induction lr with
  | nil => simp [mergeRows]
  | cons a t ih =>
    simp only [mergeRows]
    cases h : rr.find? (fun x => x.idx == a.idx) with
    | some b => simpa using Nat.succ_le_succ ih
    | none => exact Nat.le_succ_of_le ih

theorem mergeRows_mem (rr : List Row) (lr : List Row) :
    ∀ m ∈ mergeRows rr lr,
      (∃ a ∈ lr, a.idx = m.idx) ∧ (∃ b ∈ rr, b.idx = m.idx) := by
  induction lr with
  | nil => simp [mergeRows]
  | cons a t ih =>
    intro m hm
    simp only [mergeRows] at hm
    cases h : rr.find? (fun x => x.idx == a.idx) with
    | some b =>
      rw [h] at hm
      rcases List.mem_cons.mp hm with h' | h'
      · subst h'
        refine ⟨⟨a, List.mem_cons_self a t, rfl⟩, ⟨b, List.mem_of_find?_eq_some h, ?_⟩⟩
        simpa using List.find?_some h
      · obtain ⟨⟨x, hx, hx'⟩, ⟨y, hy, hy'⟩⟩ := ih m h'
        exact ⟨⟨x, List.mem_cons_of_mem _ hx, hx'⟩, ⟨y, hy, hy'⟩⟩
    | none =>
      rw [h] at hm
      obtain ⟨⟨x, hx, hx'⟩, ⟨y, hy, hy'⟩⟩ := ih m hm
      exact ⟨⟨x, List.mem_cons_of_mem _ hx, hx'⟩, ⟨y, hy, hy'⟩⟩

theorem mergeRows_idx_sublist (rr : List Row) (lr : List Row) :
    List.Sublist ((mergeRows rr lr).map Row.idx) (lr.map Row.idx) := by
  induction lr with
  | nil => simp [mergeRows]
  | cons a t ih =>
    simp only [mergeRows]
    cases h : rr.find? (fun x => x.idx == a.idx) with
    | some b => simpa using List.Sublist.cons₂ a.idx ih
    | none => exact List.Sublist.cons a.idx ih

theorem mergeRows_length_le_right (rr : List Row) (lr : List Row)
    (hnd : (lr.map Row.idx).Nodup) :
    (mergeRows rr lr).length ≤ rr.length := by
  have hnd' : ((mergeRows rr lr).map Row.idx).Nodup :=
    hnd.sublist (mergeRows_idx_sublist rr lr)
  have hsub : ((mergeRows rr lr).map Row.idx) ⊆ (rr.map Row.idx) := by
    intro i hi
    obtain ⟨m, hm, rfl⟩ := List.mem_map.mp hi
    obtain ⟨_, ⟨b, hb, hb'⟩⟩ := mergeRows_mem rr lr m hm
    exact List.mem_map.mpr ⟨b, hb, hb'⟩
  have := (List.subperm_of_subset hnd' hsub).length_le
  simpa using this

theorem project_ok {f : Frame} {cs : List String} {pp : Frame}
    (h : f.project cs = Except.ok pp) :
    pp.cols = cs ∧ pp.rows = f.rows.map (projectRow cs) := by
  unfold Frame.project at h
  by_cases hc : cs.all (fun c => f.cols.contains c)
  · rw [if_pos hc] at h
    cases h
    exact ⟨rfl, rfl⟩
  · rw [if_neg hc] at h
    cases h

/-! ## Helper lemmas: lap selection and reconciliation plumbing -/

theorem Frame.isEmpty_eq_false {f : Frame} (h : f.rows ≠ []) :
    f.isEmpty = false := by
  unfold Frame.isEmpty
  cases hr : f.rows with
  | nil => exact absurd hr h
  | cons a t => rfl

theorem fastStep_foldl (l : List LapRec) : ∀ acc : Option LapRec,
    (∀ b, acc = some b → b.lapTime.isSome = true) →
    (∀ x ∈ l, x.lapTime.isSome = true) →
    ∀ r, l.foldl fastStep acc = some r → r.lapTime.isSome = true := by
  induction l with
  | nil =>
    intro acc hacc _ r hr
    exact hacc r hr
  | cons x t ih =>
    intro acc hacc hall r hr
    simp only [List.foldl_cons] at hr
    refine ih (fastStep acc x) ?_ (fun y hy => hall y (List.mem_cons_of_mem _ hy)) r hr
    intro b hb
    cases acc with
    | none =>
      simp only [fastStep] at hb
      cases hb
      exact hall x (List.mem_cons_self x t)
    | some a =>
      simp only [fastStep] at hb
      by_cases hc : x.lapTime.getD 0 < a.lapTime.getD 0
      · rw [if_pos hc] at hb
        cases hb
        exact hall x (List.mem_cons_self x t)
      · rw [if_neg hc] at hb
        cases hb
        exact hacc _ rfl

theorem pick_fastest_isSome {laps : List LapRec} {l : LapRec}
    (h : pick_fastest laps = some l) : l.lapTime.isSome = true := by
  unfold pick_fastest at h
  refine fastStep_foldl _ none (fun b hb => by cases hb) ?_ l h
  intro x hx
  simpa using (List.mem_filter.mp hx).2

theorem selectLap_zero (dl : List LapRec) :
    selectLap dl (some 0) = selectLap dl none := by
  simp [selectLap, selectLapRaw, truthy]

/-! ## Claim theorems -/

/-- C9: at the public lap endpoint the lap-number parameter's presence is
decided by Python truthiness, so a request with `lap_number = 0` is handled
exactly like a request with no `lap_number` at all (the fastest lap is
selected instead of looking up lap 0 or raising NotFound). -/
theorem C9_lap_number_zero_is_fastest
    (p : LoadArgs → Except String (List LapRec)) (driver : String) :
    get_lap_data p driver (some 0) = get_lap_data p driver none := by
  unfold get_lap_data
  simp only [selectLap_zero]

/-- C4 (evaluation at the failing input): a request whose lap number matches
no lap of the driver reaches `.iloc[0]` on an empty selection, so the
handler surfaces an unclassified 500 (the `IndexError`), not the NotFound
the claim requires. -/
theorem C4_unmatched_lap_number_gives_500 :
    get_lap_data provC4 "VER" (some 2) =
      Except.error (500, "single positional indexer is out-of-bounds") := by
  rfl

/-- C6 (evaluation at the failing input): when the merged stream has a
Distance column but a sample's Distance value is NaN, the `elif` branch
re-reads the NaN without a `pd.notna` guard, so the undefined value
propagates into the emitted point instead of the 0.0 default the claim
requires. -/
theorem C6_nan_distance_propagates :
    (normalize_points fC6).map (fun p => p.distance) = [none] := by
  rfl

/-- C5: a lap with a null lap time is never produced by fastest-lap
selection; and whenever the raw selection (by number or by fastest) yields
a lap with a null lap time, the selector raises NotFound with the
"no valid lap time" reason, so no null-time lap ever leaves selection. -/
theorem C5_null_lap_time_never_selected :
    (∀ (laps : List LapRec) (l : LapRec),
        pick_fastest laps = some l → l.lapTime.isSome = true) ∧
    (∀ (dl : List LapRec) (ln : Option Int) (lap : LapRec),
        selectLapRaw dl ln = Except.ok lap → lap.lapTime = none →
        selectLap dl ln =
          Except.error (HErr.http 404 "Selected lap has no valid lap time")) ∧
    (∀ (dl : List LapRec) (ln : Option Int) (lap : LapRec),
        selectLap dl ln = Except.ok lap → lap.lapTime.isSome = true) := by
  refine ⟨fun laps l h => pick_fastest_isSome h, ?_, ?_⟩
  · intro dl ln lap hraw hnone
    simp [selectLap, hraw, hnone]
  · intro dl ln lap hsel
    unfold selectLap at hsel
    cases hraw : selectLapRaw dl ln with
    | error e => rw [hraw] at hsel; cases hsel
    | ok l0 =>
      rw [hraw] at hsel
      by_cases ht : l0.lapTime.isSome = true
      · simp [ht] at hsel
        rw [← hsel]
        exact ht
      · simp [ht] at hsel

/-- Witness for C5 at a concrete lap list: lap 1 has a null time, the raw
selection picks it, and the selector answers 404 "no valid lap time". -/
theorem C5_witness :
    selectLapRaw [lapC5] (some 1) = Except.ok lapC5 ∧
    lapC5.lapTime = none ∧
    selectLap [lapC5] (some 1) =
      Except.error (HErr.http 404 "Selected lap has no valid lap time") :=
  ⟨rfl, rfl, C5_null_lap_time_never_selected.2.1 [lapC5] (some 1) lapC5 rfl rfl⟩

/-- C8: on the first session-load failure the loader retries exactly once
with the reduced request (telemetry+laps only) iff the error text contains
"timeout" or "ergast" (case-insensitively); any other first error, and any
second failure, propagates and is surfaced as HTTP 500 by the handler. -/
theorem C8_retry_policy (p : LoadArgs → Except String (List LapRec)) :
    (∀ laps, p fullArgs = Except.ok laps → loadSession p = Except.ok laps) ∧
    (∀ e, p fullArgs = Except.error e → isTransientErr e = true →
        loadSession p = p reducedArgs) ∧
    (∀ e, p fullArgs = Except.error e → isTransientErr e = false →
        loadSession p = Except.error e) ∧
    (∀ e driver ln, loadSession p = Except.error e →
        get_lap_data p driver ln = Except.error (500, e)) := by
  refine ⟨?_, ?_, ?_, ?_⟩
  · intro laps h
    simp [loadSession, h]
  · intro e h ht
    simp [loadSession, h, ht]
  · intro e h ht
    simp [loadSession, h, ht]
  · intro e driver ln h
    simp [get_lap_data, h, toHttp]

/-- Witness for C8 at a concrete provider: the full-argument load fails
with a timeout message, the heuristic classifies it as transient, and the
loader's answer is the reduced-argument retry's answer. -/
theorem C8_witness :
    provC8 fullArgs = Except.error "Timeout occurred" ∧
    isTransientErr "Timeout occurred" = true ∧
    loadSession provC8 = provC8 reducedArgs :=
  ⟨rfl, by decide,
   (C8_retry_policy provC8).2.1 "Timeout occurred" rfl (by decide)⟩

/-- C2 (counterexample): a lap whose dedicated position accessor raises
while its car-dynamics stream does carry X and Y. The claim says sources
are attempted in priority order until one yields X and Y, and that the 404
carries a session-type suggestion whenever neither yields; here the
car-dynamics source yields both X and Y, yet the handler answers 404 with
the plain "No position data available" message without attempting it. -/
theorem C2_counterexample :
    hasXY carCE = true ∧
    lapCE.getCarData = Except.ok carCE ∧
    reconcile lapCE =
      Except.error (HErr.http 404 "No position data available for this lap") := by
  refine ⟨by decide, rfl, rfl⟩

/-- C7: when the telemetry stream already carries X and Y columns no merge
is performed (the reconciled stream is the telemetry stream itself), and
the normalizer emits exactly one point per source sample, in source order,
never reordering or dropping samples. -/
theorem C7_direct_telemetry_preserves_samples (lap : LapRec) (t : Frame)
    (h1 : lap.getTelemetry = Except.ok t)
    (hX : t.cols.contains "X" = true) (hY : t.cols.contains "Y" = true)
    (hne : t.rows ≠ []) :
    reconcile lap = Except.ok t ∧
    (normalize_points t).length = t.rows.length ∧
    (∀ i : ℕ, (normalize_points t)[i]? = (t.rows[i]?).map (mkPoint t)) := by
  refine ⟨?_, by simp [normalize_points], fun i => by simp [normalize_points]⟩
  have hX' : "X" ∈ t.cols := by simpa using hX
  have hY' : "Y" ∈ t.cols := by simpa using hY
  have hE := Frame.isEmpty_eq_false hne
  simp [reconcile, h1, hX', hY', hE]

/-- Witness for C7 at a concrete lap whose telemetry has X and Y. -/
theorem C7_witness :
    lapC7.getTelemetry = Except.ok tC7 ∧
    reconcile lapC7 = Except.ok tC7 ∧
    (normalize_points tC7).length = tC7.rows.length ∧
    (normalize_points tC7)[0]? = (tC7.rows[0]?).map (mkPoint tC7) := by
  have h := C7_direct_telemetry_preserves_samples lapC7 tC7 rfl
    (by decide) (by decide) (by decide)
  exact ⟨rfl, h.1, h.2.1, h.2.2 0⟩

/-- C10: whenever a merge is needed the chosen position source is projected
on X, Y and Z (plus conditionally Distance), so a position source with X
and Y but no Z column makes the projection raise `KeyError`, which the
handler surfaces as an unclassified HTTP 500 instead of merging. -/
theorem C10_missing_z_column_gives_500 (lap : LapRec) (t pos : Frame)
    (h1 : lap.getTelemetry = Except.ok t) (h2 : t.rows ≠ [])
    (h3 : (t.cols.contains "X" && t.cols.contains "Y") = false)
    (h4 : choosePos lap = Except.ok pos)
    (hX : pos.cols.contains "X" = true) (hY : pos.cols.contains "Y" = true)
    (hZ : pos.cols.contains "Z" = false) :
    reconcile lap = Except.error (HErr.exn "KeyError: columns not in index") ∧
    toHttp (HErr.exn "KeyError: columns not in index") =
      (500, "KeyError: columns not in index") := by
  refine ⟨?_, rfl⟩
  have hZ' : "Z" ∉ pos.cols := by simpa using hZ
  have hall : (posColumns pos t).all (fun c => pos.cols.contains c) = false := by
    unfold posColumns
    split
    · simp [hZ']
    · simp [hZ']
  have hproj : pos.project (posColumns pos t) =
      Except.error "KeyError: columns not in index" := by
    unfold Frame.project
    rw [if_neg (fun hc => by rw [hall] at hc; cases hc)]
  have hE := Frame.isEmpty_eq_false h2
  have h3' : ¬("X" ∈ t.cols ∧ "Y" ∈ t.cols) := by simpa using h3
  simp [reconcile, h1, hE, h3', mergeWithPos, h4, hproj]

/-- Witness for C10 at a concrete lap whose position stream has X and Y
but no Z. -/
theorem C10_witness :
    choosePos lapC10 = Except.ok posC10 ∧
    posC10.cols.contains "Z" = false ∧
    reconcile lapC10 = Except.error (HErr.exn "KeyError: columns not in index") := by
  have h := C10_missing_z_column_gives_500 lapC10 tC10 posC10 rfl
    (by decide) (by decide) rfl (by decide) (by decide) (by decide)
  exact ⟨rfl, by decide, h.1⟩

/-- C2 (amended): when telemetry lacks X/Y and the dedicated position
accessor returns successfully, sources are attempted in the fixed order
dedicated-position-stream then car-dynamics-stream until one yields both X
and Y, and if neither yields them the handler raises NotFound with the
session-type suggestion; but when the dedicated position accessor itself
raises, the handler raises NotFound with the plain "No position data
available" message without attempting the car-dynamics stream. -/
theorem C2_amended_fallback_order (lap : LapRec) (t : Frame)
    (h1 : lap.getTelemetry = Except.ok t) (h2 : t.rows ≠ [])
    (h3 : (t.cols.contains "X" && t.cols.contains "Y") = false) :
    (∀ e, lap.getPosData = Except.error e →
        reconcile lap =
          Except.error (HErr.http 404 "No position data available for this lap")) ∧
    (∀ p0, lap.getPosData = Except.ok p0 → hasXY p0 = true →
        choosePos lap = Except.ok p0) ∧
    (∀ p0 c, lap.getPosData = Except.ok p0 → hasXY p0 = false →
        lap.getCarData = Except.ok c → hasXY c = true →
        choosePos lap = Except.ok c) ∧
    (∀ p0, lap.getPosData = Except.ok p0 → hasXY p0 = false →
        (∀ c, lap.getCarData = Except.ok c → hasXY c = false) →
        reconcile lap = Except.error (HErr.http 404 noPosMsg)) := by
  have hE := Frame.isEmpty_eq_false h2
  have h3' : ¬("X" ∈ t.cols ∧ "Y" ∈ t.cols) := by simpa using h3
  refine ⟨?_, ?_, ?_, ?_⟩
  · intro e h
    simp [reconcile, h1, hE, h3', mergeWithPos, choosePos, h]
  · intro p0 h hx
    simp [choosePos, h, hx]
  · intro p0 c h hx hc hcx
    simp [choosePos, h, hx, hc, hcx]
  · intro p0 h hx hcar
    have hcp : choosePos lap = Except.error (HErr.http 404 noPosMsg) := by
      cases hc : lap.getCarData with
      | ok c => simp [choosePos, h, hx, hc, hcar c hc]
      | error e => simp [choosePos, h, hx, hc]
    simp [reconcile, h1, hE, h3', mergeWithPos, hcp]

/-- Witness for the amended C2 at a concrete lap: the dedicated position
stream is returned but empty and the car accessor raises, so the handler
answers 404 with the session-type suggestion. -/
theorem C2_witness :
    lapC2W.getPosData = Except.ok posC2W ∧
    hasXY posC2W = false ∧
    reconcile lapC2W = Except.error (HErr.http 404 noPosMsg) := by
  refine ⟨rfl, by decide, ?_⟩
  exact (C2_amended_fallback_order lapC2W tC2W rfl (by decide) (by decide)).2.2.2
    posC2W rfl (by decide) (fun c hc => by simp [lapC2W] at hc)

/-- C3: whenever a merge is needed and succeeds, the reconciled stream is
the inner join of telemetry and the chosen position stream by time index:
every surviving row's index occurs in both streams (no padding, no
interpolation), the merged size is at most `min(len(telemetry),
len(position))` (for distinct telemetry time indices), and the Distance
column is taken from the position source iff the position source has it
and telemetry does not. -/
theorem C3_inner_join_merge (lap : LapRec) (t pos pp m : Frame)
    (h1 : lap.getTelemetry = Except.ok t) (h2 : t.rows ≠ [])
    (h3 : (t.cols.contains "X" && t.cols.contains "Y") = false)
    (h4 : choosePos lap = Except.ok pos)
    (h5 : pos.project (posColumns pos t) = Except.ok pp)
    (hnd : (t.rows.map Row.idx).Nodup)
    (h6 : reconcile lap = Except.ok m) :
    m = mergeInner t pp ∧
    m.rows.length ≤ t.rows.length ∧
    m.rows.length ≤ pos.rows.length ∧
    (∀ row ∈ m.rows,
      (∃ a ∈ t.rows, a.idx = row.idx) ∧ (∃ b ∈ pos.rows, b.idx = row.idx)) ∧
    m.cols = t.cols ++ posColumns pos t ∧
    ((posColumns pos t).contains "Distance" =
      (pos.cols.contains "Distance" && !t.cols.contains "Distance")) := by
  obtain ⟨hcols, hrows⟩ := project_ok h5
  have hE := Frame.isEmpty_eq_false h2
  have h3' : ¬("X" ∈ t.cols ∧ "Y" ∈ t.cols) := by simpa using h3
  have hm : m = mergeInner t pp := by
    by_cases hie : (mergeInner t pp).isEmpty = true
    · simp [reconcile, h1, hE, h3', mergeWithPos, h4, h5, hie] at h6
    · simp [reconcile, h1, hE, h3', mergeWithPos, h4, h5, hie] at h6
      exact h6.symm
  subst hm
  refine ⟨rfl, ?_, ?_, ?_, ?_, ?_⟩
  · simpa [mergeInner] using mergeRows_length_le_left pp.rows t.rows
  · have h := mergeRows_length_le_right pp.rows t.rows hnd
    have hlen : pp.rows.length = pos.rows.length := by
      rw [hrows]; simp
    simp only [mergeInner] at *
    exact le_trans h (le_of_eq hlen)
  · intro row hrow
    obtain ⟨ha, ⟨b, hb, hb'⟩⟩ :=
      mergeRows_mem pp.rows t.rows row (by simpa [mergeInner] using hrow)
    refine ⟨ha, ?_⟩
    rw [hrows] at hb
    obtain ⟨b0, hb0, rfl⟩ := List.mem_map.mp hb
    exact ⟨b0, hb0, by simpa [projectRow] using hb'⟩
  · simp [mergeInner, hcols]
  · unfold posColumns
    by_cases hc : (pos.cols.contains "Distance" && !t.cols.contains "Distance") = true
    · rw [if_pos hc, hc]
      decide
    · rw [if_neg hc, Bool.eq_false_iff.mpr hc]
      decide

/-- Witness for C3 at a concrete lap: two telemetry samples, one position
sample sharing index 1, merge succeeds with exactly the common index. -/
theorem C3_witness :
    reconcile lapW3 = Except.ok mW3 ∧
    mW3 = mergeInner tW3 ppW3 ∧
    mW3.rows.length ≤ tW3.rows.length ∧
    mW3.rows.length ≤ posW3.rows.length := by
  have h := C3_inner_join_merge lapW3 tW3 posW3 ppW3 mW3 rfl (by decide)
    (by decide) rfl rfl (by decide) rfl
  exact ⟨rfl, h.1, h.2.1, h.2.2.1⟩

/-- Frame-level axis normalization: for a non-empty row list whose `g`-cells
are all defined, the per-row normalized value is a defined rational in
`[0, 1]`, the minimum maps to 0, the maximum to 1 (when the range is not
degenerate) and everything to 0 when it is. -/
theorem axis_frame_spec (rows : List Row) (g : Row → Val) (hne : rows ≠ [])
    (hall : ∀ r ∈ rows, (g r).isSome = true) :
    ∃ mn mx : ℚ, valsMin (rows.map g) = some mn ∧ valsMax (rows.map g) = some mx ∧
      ∀ r ∈ rows, ∃ a : ℚ, axisNorm (rows.map g) (g r) = some a ∧ 0 ≤ a ∧ a ≤ 1 ∧
        (g r = some mn → a = 0) ∧ (mn ≠ mx → g r = some mx → a = 1) ∧
        (mn = mx → a = 0) := by
  have hne' : rows.map g ≠ [] := by
    intro h
    have hlen := congrArg List.length h
    simp only [List.length_map, List.length_nil] at hlen
    exact hne (List.length_eq_zero.mp hlen)
  have hall' : ∀ v ∈ rows.map g, v.isSome = true := by
    intro v hv
    obtain ⟨r, hr, rfl⟩ := List.mem_map.mp hv
    exact hall r hr
  obtain ⟨mn, mx, hmn, hmx, hspec⟩ := axisNorm_spec (rows.map g) hne' hall'
  refine ⟨mn, mx, hmn, hmx, ?_⟩
  intro r hr
  obtain ⟨q, hq⟩ := Option.isSome_iff_exists.mp (hall r hr)
  have hmem : some q ∈ rows.map g := List.mem_map.mpr ⟨r, hr, hq⟩
  obtain ⟨a, ha, h0, h1, hminq, hmaxq, hdegq⟩ := hspec q hmem
  refine ⟨a, by rw [hq]; exact ha, h0, h1, ?_, ?_, hdegq⟩
  · intro hgr
    apply hminq
    rw [hq] at hgr
    exact Option.some.inj hgr
  · intro hmnmx hgr
    apply hmaxq hmnmx
    rw [hq] at hgr
    exact Option.some.inj hgr

/-- C1: for every non-empty reconciled stream with defined coordinates,
every emitted point's x and y — computed as `(X - x_min) / x_range` and
`(Y - y_min) / y_range` with bounds taken once over the full stream — lie
in `[0, 1]`; the sample at the minimum coordinate normalizes to 0 and at
the maximum to 1 on that axis, and when `max = min` on an axis the range
is treated as 1 (no division by zero) and every normalized value on that
axis is 0. -/
theorem C1_unit_square_normalization (f : Frame) (hne : f.rows ≠ [])
    (hx : ∀ r ∈ f.rows, (r.cell "X").isSome = true)
    (hy : ∀ r ∈ f.rows, (r.cell "Y").isSome = true) :
    (∀ p ∈ normalize_points f, ∃ a b : ℚ,
        p.x = some a ∧ p.y = some b ∧ 0 ≤ a ∧ a ≤ 1 ∧ 0 ≤ b ∧ b ≤ 1) ∧
    (∀ r ∈ f.rows, r.cell "X" = valsMin (xVals f) → (mkPoint f r).x = some 0) ∧
    (∀ r ∈ f.rows, valsMin (xVals f) ≠ valsMax (xVals f) →
        r.cell "X" = valsMax (xVals f) → (mkPoint f r).x = some 1) ∧
    (valsMin (xVals f) = valsMax (xVals f) →
        ∀ p ∈ normalize_points f, p.x = some 0) ∧
    (∀ r ∈ f.rows, r.cell "Y" = valsMin (yVals f) → (mkPoint f r).y = some 0) ∧
    (∀ r ∈ f.rows, valsMin (yVals f) ≠ valsMax (yVals f) →
        r.cell "Y" = valsMax (yVals f) → (mkPoint f r).y = some 1) ∧
    (valsMin (yVals f) = valsMax (yVals f) →
        ∀ p ∈ normalize_points f, p.y = some 0) := by
  obtain ⟨mnx, mxx, hmnx, hmxx, hXs⟩ :=
    axis_frame_spec f.rows (fun r => r.cell "X") hne hx
  obtain ⟨mny, mxy, hmny, hmxy, hYs⟩ :=
    axis_frame_spec f.rows (fun r => r.cell "Y") hne hy
  have hmnxX : valsMin (xVals f) = some mnx := hmnx
  have hmxxX : valsMax (xVals f) = some mxx := hmxx
  have hmnyY : valsMin (yVals f) = some mny := hmny
  have hmxyY : valsMax (yVals f) = some mxy := hmxy
  refine ⟨?_, ?_, ?_, ?_, ?_, ?_, ?_⟩
  · intro p hp
    obtain ⟨r, hr, rfl⟩ := List.mem_map.mp hp
    obtain ⟨a, hax, ha0, ha1, _, _, _⟩ := hXs r hr
    obtain ⟨b, hby, hb0, hb1, _, _, _⟩ := hYs r hr
    exact ⟨a, b, hax, hby, ha0, ha1, hb0, hb1⟩
  · intro r hr hminEq
    obtain ⟨a, hax, _, _, hmin0, _, _⟩ := hXs r hr
    have hcell : r.cell "X" = some mnx := by rw [hminEq]; exact hmnx
    rw [hmin0 hcell] at hax
    exact hax
  · intro r hr hneq hmaxEq
    obtain ⟨a, hax, _, _, _, hmax1, _⟩ := hXs r hr
    have hcell : r.cell "X" = some mxx := by rw [hmaxEq]; exact hmxx
    have hmnx' : mnx ≠ mxx := fun h => hneq (by rw [hmnxX, hmxxX, h])
    rw [hmax1 hmnx' hcell] at hax
    exact hax
  · intro hdeg p hp
    obtain ⟨r, hr, rfl⟩ := List.mem_map.mp hp
    obtain ⟨a, hax, _, _, _, _, hdeg0⟩ := hXs r hr
    rw [hmnxX, hmxxX] at hdeg
    rw [hdeg0 (Option.some.inj hdeg)] at hax
    exact hax
  · intro r hr hminEq
    obtain ⟨b, hby, _, _, hmin0, _, _⟩ := hYs r hr
    have hcell : r.cell "Y" = some mny := by rw [hminEq]; exact hmny
    rw [hmin0 hcell] at hby
    exact hby
  · intro r hr hneq hmaxEq
    obtain ⟨b, hby, _, _, _, hmax1, _⟩ := hYs r hr
    have hcell : r.cell "Y" = some mxy := by rw [hmaxEq]; exact hmxy
    have hmny' : mny ≠ mxy := fun h => hneq (by rw [hmnyY, hmxyY, h])
    rw [hmax1 hmny' hcell] at hby
    exact hby
  · intro hdeg p hp
    obtain ⟨r, hr, rfl⟩ := List.mem_map.mp hp
    obtain ⟨b, hby, _, _, _, _, hdeg0⟩ := hYs r hr
    rw [hmnyY, hmxyY] at hdeg
    rw [hdeg0 (Option.some.inj hdeg)] at hby
    exact hby

/-- Witness for C1 at a concrete two-sample frame (with a degenerate Y
axis): all emitted coordinates are defined and inside the unit square. -/
theorem C1_witness :
    fW1.rows ≠ [] ∧
    (∀ r ∈ fW1.rows, (r.cell "X").isSome = true) ∧
    (∀ r ∈ fW1.rows, (r.cell "Y").isSome = true) ∧
    (∀ p ∈ normalize_points fW1, ∃ a b : ℚ,
        p.x = some a ∧ p.y = some b ∧ 0 ≤ a ∧ a ≤ 1 ∧ 0 ≤ b ∧ b ≤ 1) :=
  ⟨by decide, by decide, by decide,
   (C1_unit_square_normalization fW1 (by decide) (by decide) (by decide)).1⟩

/-- Witness for C9 at a concrete provider: `lap_number = 0` gives exactly
the same response as an absent lap number. -/
theorem C9_witness :
    get_lap_data provC4 "VER" (some 0) = get_lap_data provC4 "VER" none :=
  C9_lap_number_zero_is_fastest provC4 "VER"
